import Mathlib

/-!
# Shallow embedding of the CDA500P1 notebooks

This file embeds the data-manipulation code of the CDA500P1 repository
(the notebooks `13_feature pipeline.ipynb`, `09_lightgbm_model.ipynb` and the
unnamed XGBoost notebook) in Lean 4 and proves the specification claims
about it.

Modelling choices:

* A timestamp (`pandas.Timestamp` / `datetime`, always timezone-naive after
  the notebooks' `tz_localize(None)` / `replace(tzinfo=None)`) is an `Int`
  counting minutes since 1970-01-01 00:00.  Calendar fields (`.year`,
  `.month`, `.dt.hour`, `.dt.dayofweek`) are computed by a proleptic
  Gregorian calendar (the standard era-based civil-calendar algorithm, the
  same calendar Python's `datetime` uses).
* `timedelta(weeks=52)` is `52 * 7 * 1440` minutes.
* A raw trip record is a `RawRide` (pickup timestamp and location id); a raw
  trip dataset is a `List RawRide`.
* A `pandas.DataFrame` is a column-oriented association list from column
  names to value lists (`DataFrame α`); numeric cell values are `ℚ`.
* Python functions that raise are embedded with `Except String` / `Option`.
* In-place mutation of an argument DataFrame is embedded by an "effectful"
  variant returning both the Python return value and the value of the
  caller's DataFrame after the call.
-/

namespace CDA500P1

/-! ## Calendar arithmetic (minutes since 1970-01-01, proleptic Gregorian) -/

/-- Minutes in `timedelta(weeks=52)`, the shift used by `fetch_batch_raw_data`. -/
def fiftyTwoWeeks : Int := 52 * 7 * 1440

/-- Civil date `(year, month, day)` of a day count relative to 1970-01-01
(era-based civil-from-days algorithm of the proleptic Gregorian calendar). -/
def civilOfDays (z : Int) : Int × Nat × Nat :=
  let zs : Int := z + 719468
  let era : Int := zs / 146097
  let doe : Nat := (zs - era * 146097).toNat
  let yoe : Nat := (doe - doe / 1460 + doe / 36524 - doe / 146096) / 365
  let doy : Nat := doe - (365 * yoe + yoe / 4 - yoe / 100)
  let mp : Nat := (5 * doy + 2) / 153
  let d : Nat := doy - (153 * mp + 2) / 5 + 1
  let m : Nat := if mp < 10 then mp + 3 else mp - 9
  let y : Int := (yoe : Int) + era * 400
  (if m ≤ 2 then y + 1 else y, m, d)

/-- Day count relative to 1970-01-01 of a civil date (days-from-civil). -/
def daysOfCivil (y : Int) (m d : Nat) : Int :=
  let ya : Int := if m ≤ 2 then y - 1 else y
  let era : Int := ya / 400
  let yoe : Nat := (ya - era * 400).toNat
  let mp : Nat := if 2 < m then m - 3 else m + 9
  let doy : Nat := (153 * mp + 2) / 5 + d - 1
  let doe : Nat := yoe * 365 + yoe / 4 - yoe / 100 + doy
  era * 146097 + (doe : Int) - 719468

/-- The day a minute timestamp falls on. -/
def dayOfMinutes (t : Int) : Int := t / 1440

/-- `.year` of a minute timestamp. -/
def yearOf (t : Int) : Int := (civilOfDays (dayOfMinutes t)).1

/-- `.month` of a minute timestamp (1–12). -/
def monthOf (t : Int) : Nat := (civilOfDays (dayOfMinutes t)).2.1

/-- `.dt.hour` of a minute timestamp (0–23). -/
def hourOf (t : Int) : Int := (t / 60) % 24

/-- `.dt.dayofweek` of a minute timestamp (0–6, Monday = 0; 1970-01-01 was a
Thursday, hence the offset 3). -/
def dayOfWeekOf (t : Int) : Int := (dayOfMinutes t + 3) % 7

/-- Build a minute timestamp from a civil date and a time of day. -/
def mkTime (y : Int) (m d hh mi : Nat) : Int :=
  daysOfCivil y m d * 1440 + (hh : Int) * 60 + (mi : Int)

/-! ## Raw trip records and `fetch_batch_raw_data` -/

/-- One raw taxi trip record, as produced by `load_and_process_taxi_data`:
a pickup timestamp and a pickup location id. -/
structure RawRide where
  pickup_datetime : Int
  pickup_location_id : Nat
  deriving DecidableEq, Repr

/-- Modelled from the spec: `load_and_process_taxi_data` is defined in
`src/data_utils.py`, which is not among the provided sources (the notebook
only imports and calls it).  Per the spec — the feature pipeline "performs
batch feature fetching from a taxi trip dataset" — it loads and processes
the taxi trip records of the requested `year` and `months` from the trip
dataset; the dataset is made explicit here as the `db` argument, and the
function returns exactly the rides whose pickup timestamp lies in the
requested year and months. -/
def load_and_process_taxi_data (db : List RawRide) (year : Int) (months : List Nat) :
    List RawRide :=
  db.filter fun r =>
    yearOf r.pickup_datetime == year && months.contains (monthOf r.pickup_datetime)

/-- The lexicographic key order of
`rides.sort_values(by=['pickup_location_id', 'pickup_datetime'])`. -/
def rideOrder (a b : RawRide) : Prop :=
  a.pickup_location_id < b.pickup_location_id ∨
    (a.pickup_location_id = b.pickup_location_id ∧
      a.pickup_datetime ≤ b.pickup_datetime)

instance : DecidableRel rideOrder := fun a b =>
  inferInstanceAs (Decidable (a.pickup_location_id < b.pickup_location_id ∨
    (a.pickup_location_id = b.pickup_location_id ∧
      a.pickup_datetime ≤ b.pickup_datetime)))

instance : IsTotal RawRide rideOrder :=
  ⟨fun a b => by unfold rideOrder; omega⟩

instance : IsTrans RawRide rideOrder :=
  ⟨fun a b c hab hbc => by unfold rideOrder at hab hbc ⊢; omega⟩

/-- `fetch_batch_raw_data` from `13_feature pipeline.ipynb`:
raises `ValueError` unless `from_date < to_date`; shifts both dates back by
52 weeks; loads the month of the shifted from-date and keeps rides at or
after it; when the shifted to-date has a different `.month`, also loads the
month of the shifted to-date and keeps rides strictly before it; shifts all
timestamps forward by 52 weeks and sorts by `(pickup_location_id,
pickup_datetime)`.  (The `str` branches of the Python signature —
`fromisoformat` parsing — and the no-op timezone stripping of already-naive
timestamps are outside this embedding; dates are passed as timestamps, and
the sorted output of `sort_values` is embedded by an insertion sort on the
same key.) -/
def fetch_batch_raw_data (db : List RawRide) (from_date to_date : Int) :
    Except String (List RawRide) :=
  if from_date ≥ to_date then
    .error "from_date must be earlier than to_date."
  else
    let historical_from_date := from_date - fiftyTwoWeeks
    let historical_to_date := to_date - fiftyTwoWeeks
    let rides_from :=
      (load_and_process_taxi_data db (yearOf historical_from_date)
          [monthOf historical_from_date]).filter
        fun r => historical_from_date ≤ r.pickup_datetime
    let rides :=
      if monthOf historical_to_date ≠ monthOf historical_from_date then
        let rides_to :=
          (load_and_process_taxi_data db (yearOf historical_to_date)
              [monthOf historical_to_date]).filter
            fun r => r.pickup_datetime < historical_to_date
        rides_from ++ rides_to
      else
        rides_from
    let rides := rides.map fun r =>
      { r with pickup_datetime := r.pickup_datetime + fiftyTwoWeeks }
    .ok (rides.insertionSort rideOrder)

/-! ## DataFrames -/

/-- Column-oriented embedding of a `pandas.DataFrame` with cell values in `α`:
an association list from column names to the list of that column's values
(row `i` of a column is entry `i` of its list). -/
structure DataFrame (α : Type) where
  cols : List (String × List α)
  deriving DecidableEq, Repr

namespace DataFrame

variable {α : Type}

/-- `X.columns`. -/
def names (df : DataFrame α) : List String := df.cols.map Prod.fst

/-- `c in X.columns`. -/
def hasCol (df : DataFrame α) (c : String) : Bool := df.cols.any fun p => p.1 == c

/-- `X[c]` as a read: the values of column `c`, if present. -/
def getCol (df : DataFrame α) (c : String) : Option (List α) :=
  (df.cols.find? fun p => p.1 == c).map Prod.snd

/-- `X[c] = v`: overwrite column `c` when it exists, else append it. -/
def setCol (df : DataFrame α) (c : String) (v : List α) : DataFrame α :=
  if df.hasCol c then ⟨df.cols.map fun p => if p.1 == c then (c, v) else p⟩
  else ⟨df.cols ++ [(c, v)]⟩

/-- `X.drop(columns=cs)`: remove the listed columns, `KeyError` (`none`)
when any of them is absent. -/
def dropCols (df : DataFrame α) (cs : List String) : Option (DataFrame α) :=
  if cs.all df.hasCol then some ⟨df.cols.filter fun p => !cs.contains p.1⟩
  else none

end DataFrame

/-! ## `average_rides_last_4_weeks` -/

/-- The four lag columns required by `average_rides_last_4_weeks`
(`rides_t-{7*24}` … `rides_t-{28*24}`). -/
def last_4_weeks_columns : List String :=
  ["rides_t-168", "rides_t-336", "rides_t-504", "rides_t-672"]

/-- Row-wise combination of four equally long columns. -/
def zipWith4 {α β : Type} (f : α → α → α → α → β) :
    List α → List α → List α → List α → List β
  | a :: as, b :: bs, c :: cs, d :: ds => f a b c d :: zipWith4 f as bs cs ds
  | _, _, _, _ => []

/-- The row operation of `X[last_4_weeks_columns].mean(axis=1)`. -/
def rowMean4 (a b c d : ℚ) : ℚ := (a + b + c + d) / 4

/-- `average_rides_last_4_weeks` from `13_feature pipeline.ipynb`: raise
`ValueError` at the first of the four lag columns missing from `X.columns`;
otherwise add the column `average_rides_last_4_weeks` holding the row-wise
mean of the four lag columns and return `X`. -/
def average_rides_last_4_weeks (X : DataFrame ℚ) : Except String (DataFrame ℚ) :=
  match last_4_weeks_columns.find? (fun c => !X.hasCol c) with
  | some c => .error ("Missing required column: " ++ c)
  | none =>
    let c1 := (X.getCol "rides_t-168").getD []
    let c2 := (X.getCol "rides_t-336").getD []
    let c3 := (X.getCol "rides_t-504").getD []
    let c4 := (X.getCol "rides_t-672").getD []
    .ok (X.setCol "average_rides_last_4_weeks" (zipWith4 rowMean4 c1 c2 c3 c4))

/-- Effect-aware view of `average_rides_last_4_weeks`: the pandas column
assignment `X[...] = ...` mutates the caller's frame in place and the
function then returns that same frame (the wrapping `FunctionTransformer`
is built with `validate=False`, so no copy intervenes).  The embedding
records a successful call as the pair (returned frame, caller's frame after
the call) — the two components coincide. -/
def average_rides_last_4_weeks_eff (X : DataFrame ℚ) :
    Except String (DataFrame ℚ × DataFrame ℚ) :=
  (average_rides_last_4_weeks X).map fun Xr => (Xr, Xr)

/-! ## `TemporalFeatureEngineer` -/

/-- A DataFrame cell that is either a number or a (naive) timestamp. -/
inductive Val where
  | num (q : ℚ)
  | time (t : Int)
  deriving DecidableEq, Repr

/-- Whether a cell holds a timestamp. -/
def Val.isTime : Val → Bool
  | time _ => true
  | num _ => false

/-- `series.dt.hour` on one cell: defined on timestamps only (`.dt` on a
non-datetime column raises). -/
def Val.toHour : Val → Option Val
  | time t => some (num ((hourOf t : ℚ)))
  | num _ => none

/-- `series.dt.dayofweek` on one cell (0–6, Monday = 0). -/
def Val.toDayOfWeek : Val → Option Val
  | time t => some (num ((dayOfWeekOf t : ℚ)))
  | num _ => none

/-- Apply a per-cell operation to a whole column, failing if it fails on
any cell (a vectorised pandas `.dt` accessor). -/
def mapCells (f : Val → Option Val) : List Val → Option (List Val)
  | [] => some []
  | v :: vs => do
    let w ← f v
    let ws ← mapCells f vs
    return w :: ws

/-- The `TemporalFeatureEngineer` estimator of `13_feature pipeline.ipynb`
(a `BaseEstimator`/`TransformerMixin` with no learned state). -/
structure TemporalFeatureEngineer where
  deriving DecidableEq, Repr

/-- `fit(self, X, y=None)` returns `self` without reading the data. -/
def TemporalFeatureEngineer.fit (self : TemporalFeatureEngineer)
    (_X : DataFrame Val) : TemporalFeatureEngineer := self

/-- `transform(self, X, y=None)`: copy `X`, add `hour` and `day_of_week`
extracted from the `pickup_hour` column, and drop `pickup_hour` and
`pickup_location_id`.  `none` models the raises: `KeyError` when
`pickup_hour` or `pickup_location_id` is absent, `AttributeError` when a
`pickup_hour` cell is not a timestamp. -/
def TemporalFeatureEngineer.transform (_self : TemporalFeatureEngineer)
    (X : DataFrame Val) : Option (DataFrame Val) := do
  let ph ← X.getCol "pickup_hour"
  let hours ← mapCells Val.toHour ph
  let dows ← mapCells Val.toDayOfWeek ph
  let X1 := (X.setCol "hour" hours).setCol "day_of_week" dows
  X1.dropCols ["pickup_hour", "pickup_location_id"]

/-- Effect-aware view of `transform`: the body works on `X_ = X.copy()` and
never touches the argument, so a successful call is the pair (returned
frame, caller's frame after the call) with the second component the
argument itself. -/
def TemporalFeatureEngineer.transform_eff (self : TemporalFeatureEngineer)
    (X : DataFrame Val) : Option (DataFrame Val × DataFrame Val) :=
  (self.transform X).map fun r => (r, X)

/-! ## `split_time_series_data` and the model-logging cells -/

/-- One row of the tabular feature set `tabular_data.parquet`: a timestamp,
the feature values, and the value of the target column. -/
structure TsRow where
  pickup_hour : Int
  features : List ℚ
  target : ℚ
  deriving DecidableEq, Repr

/-- Modelled from the spec: `split_time_series_data` is defined in
`src/data_utils.py`, which is not among the provided sources (the
notebooks call it with a `cutoff_date` and `target_column="target"`).
Per the spec — "load a tabular feature set, split it by time", "time-based
train/test split" — it partitions the rows by time at the cutoff (train
rows strictly before `cutoff_date`, test rows at or after it) and separates
the target column from the features in each partition, returning
`(X_train, y_train, X_test, y_test)`. -/
def split_time_series_data (df : List TsRow) (cutoff_date : Int) :
    List (Int × List ℚ) × List ℚ × List (Int × List ℚ) × List ℚ :=
  let train := df.filter fun r => r.pickup_hour < cutoff_date
  let test := df.filter fun r => !(r.pickup_hour < cutoff_date : Bool)
  (train.map (fun r => (r.pickup_hour, r.features)), train.map TsRow.target,
    test.map (fun r => (r.pickup_hour, r.features)), test.map TsRow.target)

/-- Third-party `sklearn.metrics.mean_absolute_error`: the mean of the
absolute differences between true values and predictions. -/
def mean_absolute_error (y_true y_pred : List ℚ) : ℚ :=
  (y_true.zipWith (fun a b => |a - b|) y_pred).sum / (y_true.length : ℚ)

/-- What one call to the experiment tracker records. -/
structure MlflowRun (M : Type) where
  model : M
  input_data : DataFrame ℚ
  experiment_name : String
  metric_name : String
  score : ℚ

/-- Modelled from the spec: `log_model_to_mlflow` is defined in
`src/experiment_utils.py`, which is not among the provided sources.  Per
the spec — "log the model and metric to an experiment tracker" — it records
the given model, input example, experiment name, metric name and score
unchanged with the tracker. -/
def log_model_to_mlflow {M : Type} (model : M) (input_data : DataFrame ℚ)
    (experiment_name metric_name : String) (score : ℚ) : MlflowRun M :=
  ⟨model, input_data, experiment_name, metric_name, score⟩

/-- The train–predict–evaluate–log cell of `09_lightgbm_model.ipynb`:
fit `lgb.LGBMRegressor()` on the numeric training columns, predict on the
numeric test columns, take the test MAE, and log the model with that score
(`lgbm_fit` and `predict` abstract the third-party LightGBM learner). -/
def notebook09_cell {M : Type} (lgbm_fit : DataFrame ℚ → List ℚ → M)
    (predict : M → DataFrame ℚ → List ℚ)
    (X_train_only_numeric : DataFrame ℚ) (y_train : List ℚ)
    (X_test_only_numeric : DataFrame ℚ) (y_test : List ℚ) : MlflowRun M :=
  let model := lgbm_fit X_train_only_numeric y_train
  let predictions := predict model X_test_only_numeric
  let test_mae := mean_absolute_error y_test predictions
  log_model_to_mlflow model X_test_only_numeric "LGBMRegressor"
    "mean_absolute_error" test_mae

/-- The train–predict–evaluate–log cell of the unnamed XGBoost notebook:
fit `xgb.XGBRegressor(max_depth=10)`, predict on the numeric test columns,
take the test MAE, and log the model with that score. -/
def notebookXgb_cell {M : Type} (xgb_fit : DataFrame ℚ → List ℚ → M)
    (predict : M → DataFrame ℚ → List ℚ)
    (X_train_only_numeric : DataFrame ℚ) (y_train : List ℚ)
    (X_test_only_numeric : DataFrame ℚ) (y_test : List ℚ) : MlflowRun M :=
  let model := xgb_fit X_train_only_numeric y_train
  let predictions := predict model X_test_only_numeric
  let test_mae := mean_absolute_error y_test predictions
  log_model_to_mlflow model X_test_only_numeric "XGBoost"
    "mean_absolute_error" test_mae

/-- The logging cell of `13_feature pipeline.ipynb` (second document):
predict with the hyper-parameter search's best pipeline on `X_test`, take
the test MAE, and log that model with that score. -/
def notebook13_cell {M : Type} (best_model : M)
    (predict : M → DataFrame ℚ → List ℚ)
    (X_test : DataFrame ℚ) (y_test : List ℚ) : MlflowRun M :=
  let predictions := predict best_model X_test
  let test_mae := mean_absolute_error y_test predictions
  log_model_to_mlflow best_model X_test "LGBMRegressorHyper"
    "mean_absolute_error" test_mae

example : civilOfDays 0 = (1970, 1, 1) := by decide
example : daysOfCivil 1970 1 1 = 0 := by decide
example : civilOfDays (daysOfCivil 2024 1 10) = (2024, 1, 10) := by decide
example : civilOfDays (daysOfCivil 2024 2 29) = (2024, 2, 29) := by decide
example : civilOfDays (daysOfCivil 2000 3 1) = (2000, 3, 1) := by decide
example : dayOfWeekOf (mkTime 1970 1 1 0 0) = 3 := by decide
example : dayOfWeekOf (mkTime 2025 3 5 10 0) = 2 := by decide
example : hourOf (mkTime 2025 3 5 10 30) = 10 := by decide
example : monthOf (mkTime 2024 12 31 23 59) = 12 := by decide
example : yearOf (mkTime 2024 12 31 23 59) = 2024 := by decide

/-! ## Association-list lemmas for `DataFrame` -/

namespace DataFrame

variable {α : Type}

theorem hasCol_iff (df : DataFrame α) (c : String) :
    df.hasCol c = true ↔ c ∈ df.names := by
  unfold hasCol names
  rw [List.any_eq_true]
  constructor
  · rintro ⟨p, hp, he⟩
    exact List.mem_map.2 ⟨p, hp, beq_iff_eq.1 he⟩
  · intro h
    obtain ⟨p, hp, he⟩ := List.mem_map.1 h
    exact ⟨p, hp, beq_iff_eq.2 he⟩

theorem getCol_eq_none_iff (df : DataFrame α) (c : String) :
    df.getCol c = none ↔ c ∉ df.names := by
  unfold getCol
  rw [Option.map_eq_none', List.find?_eq_none]
  constructor
  · intro h hc
    obtain ⟨p, hp, he⟩ := List.mem_map.1 hc
    exact h p hp (beq_iff_eq.2 he)
  · intro h p hp he
    exact h (List.mem_map.2 ⟨p, hp, beq_iff_eq.1 he⟩)

theorem getCol_isSome_of_mem {df : DataFrame α} {c : String} (h : c ∈ df.names) :
    ∃ v, df.getCol c = some v := by
  cases hg : df.getCol c with
  | none => exact absurd ((getCol_eq_none_iff df c).1 hg) (not_not.2 h)
  | some v => exact ⟨v, rfl⟩

theorem find?_map_setCol (c : String) (v : List α) :
    ∀ l : List (String × List α), l.any (fun p => p.1 == c) = true →
      (l.map fun p => if p.1 == c then (c, v) else p).find? (fun p => p.1 == c) =
        some (c, v)
  | [], h => by simp at h
  | p :: l, h => by
    rw [List.map_cons]
    by_cases hc : p.1 = c
    · have hif : (if p.1 == c then (c, v) else p) = (c, v) := if_pos (beq_iff_eq.2 hc)
      rw [hif, List.find?_cons_of_pos _ (by simp)]
    · have hif : (if p.1 == c then (c, v) else p) = p := if_neg (by simp [hc])
      have hl : l.any (fun p => p.1 == c) = true := by
        rcases List.any_eq_true.1 h with ⟨q, hq, hqc⟩
        rcases List.mem_cons.1 hq with rfl | hq'
        · exact absurd (beq_iff_eq.1 hqc) hc
        · exact List.any_eq_true.2 ⟨q, hq', hqc⟩
      rw [hif, List.find?_cons_of_neg _ (by simp [hc])]
      exact find?_map_setCol c v l hl

theorem find?_map_setCol_ne (c c' : String) (v : List α) (h : c' ≠ c) :
    ∀ l : List (String × List α),
      (l.map fun p => if p.1 == c then (c, v) else p).find? (fun p => p.1 == c') =
        l.find? (fun p => p.1 == c')
  | [] => rfl
  | p :: l => by
    rw [List.map_cons]
    by_cases hc : p.1 = c
    · have hif : (if p.1 == c then (c, v) else p) = (c, v) := if_pos (beq_iff_eq.2 hc)
      have h2 : (p.1 == c') = false := by
        rw [hc]
        exact beq_eq_false_iff_ne.2 fun e => h e.symm
      rw [hif, List.find?_cons_of_neg _ (by intro hh; simp at hh; exact h hh.symm),
        List.find?_cons_of_neg _ (by simp [h2])]
      exact find?_map_setCol_ne c c' v h l
    · have hif : (if p.1 == c then (c, v) else p) = p := if_neg (by simp [hc])
      rw [hif]
      by_cases he : p.1 = c'
      · rw [List.find?_cons_of_pos _ (by simp [he]), List.find?_cons_of_pos _ (by simp [he])]
      · rw [List.find?_cons_of_neg _ (by simp [he]), List.find?_cons_of_neg _ (by simp [he])]
        exact find?_map_setCol_ne c c' v h l

theorem getCol_setCol_self (df : DataFrame α) (c : String) (v : List α) :
    (df.setCol c v).getCol c = some v := by
  unfold setCol
  cases hb : df.hasCol c with
  | true =>
    simp only [hb, if_true]
    unfold getCol
    rw [find?_map_setCol c v df.cols hb]
    rfl
  | false =>
    simp only [hb, Bool.false_eq_true, if_false]
    unfold getCol
    rw [List.find?_append]
    have : df.cols.find? (fun p => p.1 == c) = none := by
      rw [List.find?_eq_none]
      intro p hp he
      unfold hasCol at hb
      rw [List.any_eq_false] at hb
      exact absurd he (hb p hp)
    simp [this]

theorem getCol_setCol_ne (df : DataFrame α) {c c' : String} (v : List α) (h : c' ≠ c) :
    (df.setCol c v).getCol c' = df.getCol c' := by
  unfold setCol
  cases hb : df.hasCol c with
  | true =>
    simp only [hb, if_true]
    unfold getCol
    rw [find?_map_setCol_ne c c' v h df.cols]
  | false =>
    simp only [hb, Bool.false_eq_true, if_false]
    unfold getCol
    rw [List.find?_append]
    have h1 : (c == c') = false := beq_eq_false_iff_ne.2 fun e => h e.symm
    cases hf : df.cols.find? (fun p => p.1 == c') <;> simp [hf, h1]

theorem names_setCol_of_mem (df : DataFrame α) {c : String} (v : List α)
    (h : c ∈ df.names) : (df.setCol c v).names = df.names := by
  have hb : df.hasCol c = true := (hasCol_iff df c).2 h
  unfold setCol
  simp only [hb, if_true]
  unfold names
  rw [List.map_map]
  apply List.map_congr_left
  intro p _
  by_cases hc : p.1 = c <;> simp [Function.comp, hc]

theorem names_setCol_of_not_mem (df : DataFrame α) {c : String} (v : List α)
    (h : c ∉ df.names) : (df.setCol c v).names = df.names ++ [c] := by
  have hb : df.hasCol c = false := by
    cases hb : df.hasCol c with
    | true => exact absurd ((hasCol_iff df c).1 hb) h
    | false => rfl
  unfold setCol
  simp only [hb, Bool.false_eq_true, if_false]
  unfold names
  simp

theorem mem_names_setCol_iff (df : DataFrame α) (c c' : String) (v : List α) :
    c' ∈ (df.setCol c v).names ↔ c' ∈ df.names ∨ c' = c := by
  by_cases h : c ∈ df.names
  · rw [names_setCol_of_mem df v h]
    constructor
    · exact Or.inl
    · rintro (h' | rfl)
      · exact h'
      · exact h
  · rw [names_setCol_of_not_mem df v h]
    simp

theorem mem_names_setCol_self (df : DataFrame α) (c : String) (v : List α) :
    c ∈ (df.setCol c v).names :=
  (mem_names_setCol_iff df c c v).2 (Or.inr rfl)

theorem find?_filterOut_of_mem (cs : List String) (c : String) (hc : c ∈ cs) :
    ∀ l : List (String × List α),
      ((l.filter fun p => !cs.contains p.1).find? fun p => p.1 == c) = none
  | [] => rfl
  | p :: l => by
    by_cases hp : p.1 ∈ cs
    · rw [List.filter_cons_of_neg (by simp [hp])]
      exact find?_filterOut_of_mem cs c hc l
    · rw [List.filter_cons_of_pos (by simp [hp])]
      have hne : ¬ ((p.1 == c) = true) := by
        intro he
        exact hp (by rw [beq_iff_eq.1 he]; exact hc)
      rw [List.find?_cons_of_neg _ (by exact hne)]
      exact find?_filterOut_of_mem cs c hc l

theorem find?_filterOut_of_not_mem (cs : List String) (c : String) (hc : c ∉ cs) :
    ∀ l : List (String × List α),
      ((l.filter fun p => !cs.contains p.1).find? fun p => p.1 == c) =
        l.find? fun p => p.1 == c
  | [] => rfl
  | p :: l => by
    by_cases hp : p.1 ∈ cs
    · have hne : ¬ ((p.1 == c) = true) := by
        intro he
        exact hc (beq_iff_eq.1 he ▸ hp)
      rw [List.filter_cons_of_neg (by simp [hp]), List.find?_cons_of_neg _ (by exact hne)]
      exact find?_filterOut_of_not_mem cs c hc l
    · rw [List.filter_cons_of_pos (by simp [hp])]
      by_cases he : p.1 = c
      · rw [List.find?_cons_of_pos _ (by simp [he]), List.find?_cons_of_pos _ (by simp [he])]
      · rw [List.find?_cons_of_neg _ (by simp [he]), List.find?_cons_of_neg _ (by simp [he])]
        exact find?_filterOut_of_not_mem cs c hc l

theorem dropCols_isSome_iff (df : DataFrame α) (cs : List String) :
    (df.dropCols cs).isSome = true ↔ ∀ c ∈ cs, c ∈ df.names := by
  unfold dropCols
  cases h : cs.all df.hasCol with
  | true =>
    simp only [if_true, Option.isSome_some, true_iff]
    intro c hc
    exact (hasCol_iff df c).1 (List.all_eq_true.1 h c hc)
  | false =>
    simp only [Bool.false_eq_true, if_false, Option.isSome_none]
    constructor
    · intro h'
      exact absurd h' (by simp)
    · intro h'
      have : cs.all df.hasCol = true :=
        List.all_eq_true.2 fun c hc => (hasCol_iff df c).2 (h' c hc)
      rw [this] at h
      exact absurd h (by simp)

theorem getCol_dropCols_of_mem {df df' : DataFrame α} {cs : List String} {c : String}
    (h : df.dropCols cs = some df') (hc : c ∈ cs) : df'.getCol c = none := by
  unfold dropCols at h
  split at h
  · cases h
    unfold getCol
    rw [find?_filterOut_of_mem cs c hc df.cols]
    rfl
  · cases h

theorem getCol_dropCols_of_not_mem {df df' : DataFrame α} {cs : List String} {c : String}
    (h : df.dropCols cs = some df') (hc : c ∉ cs) : df'.getCol c = df.getCol c := by
  unfold dropCols at h
  split at h
  · cases h
    unfold getCol
    rw [find?_filterOut_of_not_mem cs c hc df.cols]
  · cases h

end DataFrame

/-! ## `mapCells` and `zipWith4` lemmas -/

theorem mapCells_eq_none_iff (f : Val → Option Val) :
    ∀ l : List Val, mapCells f l = none ↔ ∃ v ∈ l, f v = none
  | [] => by simp [mapCells]
  | v :: l => by
    cases hf : f v with
    | none => simp [mapCells, hf]
    | some w =>
      cases hr : mapCells f l with
      | none =>
        obtain ⟨x, hx, hfx⟩ := (mapCells_eq_none_iff f l).1 hr
        constructor
        · intro _
          exact ⟨x, List.mem_cons_of_mem v hx, hfx⟩
        · intro _
          simp [mapCells, hf, hr]
      | some ws =>
        have hnone : ¬ ∃ x ∈ l, f x = none := by
          intro hex
          rw [← mapCells_eq_none_iff f l] at hex
          rw [hex] at hr
          cases hr
        constructor
        · intro h'
          simp [mapCells, hf, hr] at h'
        · rintro ⟨x, hx, hfx⟩
          rcases List.mem_cons.1 hx with rfl | hx'
          · rw [hf] at hfx
            cases hfx
          · exact absurd ⟨x, hx', hfx⟩ hnone

theorem mapCells_isSome_of_forall (f : Val → Option Val) (l : List Val)
    (h : ∀ v ∈ l, (f v).isSome = true) : ∃ l', mapCells f l = some l' := by
  cases hm : mapCells f l with
  | none =>
    obtain ⟨v, hv, hfv⟩ := (mapCells_eq_none_iff f l).1 hm
    have hs := h v hv
    rw [hfv] at hs
    simp at hs
  | some l' => exact ⟨l', rfl⟩

theorem mapCells_getElem? (f : Val → Option Val) :
    ∀ (l l' : List Val), mapCells f l = some l' →
      ∀ (i : Nat) (v : Val), l[i]? = some v → l'[i]? = f v
  | [], l', h => by
    intro i v hv
    simp at hv
  | a :: l, l', h => by
    intro i v hv
    cases hf : f a with
    | none => simp [mapCells, hf] at h
    | some w =>
      cases hr : mapCells f l with
      | none => simp [mapCells, hf, hr] at h
      | some ws =>
        have hl' : l' = w :: ws := by
          simp [mapCells, hf, hr] at h
          exact h.symm
        subst hl'
        match i with
        | 0 =>
          simp at hv
          subst hv
          simp [hf]
        | i + 1 =>
          simp at hv ⊢
          exact mapCells_getElem? f l ws hr i v hv

theorem zipWith4_getElem? {α β : Type} (f : α → α → α → α → β) :
    ∀ (as bs cs ds : List α) (i : Nat) (a b c d : α),
      as[i]? = some a → bs[i]? = some b → cs[i]? = some c → ds[i]? = some d →
      (zipWith4 f as bs cs ds)[i]? = some (f a b c d) := by
  intro as
  induction as with
  | nil =>
    intro bs cs ds i a b c d ha
    simp at ha
  | cons a' as ih =>
    intro bs cs ds i a b c d ha hb hc hd
    match bs, cs, ds with
    | [], _, _ => simp at hb
    | _ :: _, [], _ => simp at hc
    | _ :: _, _ :: _, [] => simp at hd
    | b' :: bs', c' :: cs', d' :: ds' =>
      match i with
      | 0 =>
        simp at ha hb hc hd
        subst ha; subst hb; subst hc; subst hd
        simp [zipWith4]
      | i + 1 =>
        simp at ha hb hc hd
        simpa [zipWith4] using ih bs' cs' ds' i a b c d ha hb hc hd

/-- A successful `average_rides_last_4_weeks` call returns the input frame
with the `average_rides_last_4_weeks` column written. -/
theorem average_rides_ok_eq {X Xr : DataFrame ℚ}
    (h : average_rides_last_4_weeks X = .ok Xr) :
    Xr = X.setCol "average_rides_last_4_weeks"
      (zipWith4 rowMean4 ((X.getCol "rides_t-168").getD [])
        ((X.getCol "rides_t-336").getD []) ((X.getCol "rides_t-504").getD [])
        ((X.getCol "rides_t-672").getD [])) := by
  unfold average_rides_last_4_weeks at h
  split at h
  · cases h
  · cases h
    rfl

/-! ## Claim theorems -/

/-- `average_rides_last_4_weeks` errors exactly when a lag column is
missing. -/
theorem average_rides_raises_iff_aux (X : DataFrame ℚ) :
    (∃ e, average_rides_last_4_weeks X = .error e) ↔
      ∃ c ∈ last_4_weeks_columns, c ∉ X.names := by
  unfold average_rides_last_4_weeks
  cases hf : last_4_weeks_columns.find? (fun c => !X.hasCol c) with
  | none =>
    simp only [hf]
    constructor
    · rintro ⟨e, he⟩
      cases he
    · rintro ⟨c, hc, hnc⟩
      have hnb := List.find?_eq_none.1 hf c hc
      have hb : X.hasCol c = true := by
        cases hb : X.hasCol c with
        | false => exact absurd (by simp [hb]) hnb
        | true => rfl
      exact absurd ((DataFrame.hasCol_iff X c).1 hb) hnc
  | some c =>
    simp only [hf]
    constructor
    · intro _
      refine ⟨c, List.mem_of_find?_eq_some hf, ?_⟩
      have hb := List.find?_some hf
      intro hmem
      rw [(DataFrame.hasCol_iff X c).2 hmem] at hb
      cases hb
    · intro _
      exact ⟨"Missing required column: " ++ c, rfl⟩

/-- C2: `average_rides_last_4_weeks` raises `ValueError` if and only if at
least one of the four required lag columns `rides_t-168`, `rides_t-336`,
`rides_t-504`, `rides_t-672` is absent from the input DataFrame's columns;
when all four are present it returns normally. -/
theorem average_rides_raises_iff_missing_lag_column (X : DataFrame ℚ) :
    (∃ e, average_rides_last_4_weeks X = .error e) ↔
      ∃ c ∈ last_4_weeks_columns, c ∉ X.names :=
  average_rides_raises_iff_aux X

/-- A feature frame that already carries an `average_rides_last_4_weeks`
column besides the four required lag columns. -/
def C4frame : DataFrame ℚ :=
  ⟨[("rides_t-168", [1]), ("rides_t-336", [2]), ("rides_t-504", [3]),
    ("rides_t-672", [4]), ("average_rides_last_4_weeks", [0])]⟩

/-- C4 counterexample: on a frame that already carries an
`average_rides_last_4_weeks` column the pandas assignment overwrites it, so
the returned frame has the same columns as the input — not the input
extended by exactly one new column. -/
theorem average_rides_overwrites_existing_column :
    (∀ c ∈ last_4_weeks_columns, c ∈ C4frame.names) ∧
    (average_rides_last_4_weeks C4frame).map DataFrame.names = .ok C4frame.names ∧
    C4frame.names ≠ C4frame.names ++ ["average_rides_last_4_weeks"] := by
  refine ⟨by decide, rfl, by decide⟩

/-- C4 (amended): for every DataFrame containing the four lag columns and
not already containing `average_rides_last_4_weeks`, the helper returns the
input with exactly one new column `average_rides_last_4_weeks` appended,
every other column unchanged, whose value in each row is the arithmetic
mean of the four lag values of that row (when the column already exists it
is overwritten with those means instead). -/
theorem average_rides_adds_mean_column (X : DataFrame ℚ)
    (h4 : ∀ c ∈ last_4_weeks_columns, c ∈ X.names)
    (hnew : "average_rides_last_4_weeks" ∉ X.names) :
    ∃ X', average_rides_last_4_weeks X = .ok X' ∧
      X'.names = X.names ++ ["average_rides_last_4_weeks"] ∧
      (∀ c, c ≠ "average_rides_last_4_weeks" → X'.getCol c = X.getCol c) ∧
      ∀ la lb lc ld, X.getCol "rides_t-168" = some la →
        X.getCol "rides_t-336" = some lb →
        X.getCol "rides_t-504" = some lc →
        X.getCol "rides_t-672" = some ld →
        ∃ lm, X'.getCol "average_rides_last_4_weeks" = some lm ∧
          ∀ (i : Nat) (a b c d : ℚ), la[i]? = some a → lb[i]? = some b →
            lc[i]? = some c → ld[i]? = some d →
            lm[i]? = some ((a + b + c + d) / 4) := by
  have hfind : last_4_weeks_columns.find? (fun c => !X.hasCol c) = none := by
    rw [List.find?_eq_none]
    intro c hc
    simp [(DataFrame.hasCol_iff X c).2 (h4 c hc)]
  refine ⟨X.setCol "average_rides_last_4_weeks"
    (zipWith4 rowMean4 ((X.getCol "rides_t-168").getD [])
      ((X.getCol "rides_t-336").getD []) ((X.getCol "rides_t-504").getD [])
      ((X.getCol "rides_t-672").getD [])), ?_, ?_, ?_, ?_⟩
  · unfold average_rides_last_4_weeks
    rw [hfind]
  · exact DataFrame.names_setCol_of_not_mem X _ hnew
  · intro c hcne
    exact DataFrame.getCol_setCol_ne X _ hcne
  · intro la lb lc ld ha hb hc hd
    refine ⟨_, DataFrame.getCol_setCol_self X _ _, ?_⟩
    intro i a b c d hia hib hic hid
    simp only [ha, hb, hc, hd, Option.getD_some]
    have hz := zipWith4_getElem? rowMean4 la lb lc ld i a b c d hia hib hic hid
    simpa [rowMean4] using hz

/-- A feature frame with exactly the four required lag columns. -/
def C4frameW : DataFrame ℚ :=
  ⟨[("rides_t-168", [1]), ("rides_t-336", [2]), ("rides_t-504", [3]),
    ("rides_t-672", [4])]⟩

/-- Witness for C4 (amended), instantiated on `C4frameW`. -/
theorem average_rides_adds_mean_column_witness :
    ∃ X', average_rides_last_4_weeks C4frameW = .ok X' ∧
      X'.names = C4frameW.names ++ ["average_rides_last_4_weeks"] ∧
      (∀ c, c ≠ "average_rides_last_4_weeks" → X'.getCol c = C4frameW.getCol c) ∧
      ∀ la lb lc ld, C4frameW.getCol "rides_t-168" = some la →
        C4frameW.getCol "rides_t-336" = some lb →
        C4frameW.getCol "rides_t-504" = some lc →
        C4frameW.getCol "rides_t-672" = some ld →
        ∃ lm, X'.getCol "average_rides_last_4_weeks" = some lm ∧
          ∀ (i : Nat) (a b c d : ℚ), la[i]? = some a → lb[i]? = some b →
            lc[i]? = some c → ld[i]? = some d →
            lm[i]? = some ((a + b + c + d) / 4) :=
  average_rides_adds_mean_column C4frameW (by decide) (by decide)

/-- C9: a successful call to the effect-aware `average_rides_last_4_weeks`
returns the caller's frame itself: the returned frame and the caller's
frame after the call are the same value, and that frame carries the
`average_rides_last_4_weeks` column. -/
theorem average_rides_eff_returns_argument (X r₁ r₂ : DataFrame ℚ)
    (h : average_rides_last_4_weeks_eff X = .ok (r₁, r₂)) :
    r₁ = r₂ ∧ "average_rides_last_4_weeks" ∈ r₂.names := by
  unfold average_rides_last_4_weeks_eff at h
  cases hA : average_rides_last_4_weeks X with
  | error e =>
    rw [hA] at h
    cases h
  | ok Xr =>
    rw [hA] at h
    simp only [Except.map] at h
    cases h
    refine ⟨rfl, ?_⟩
    rw [average_rides_ok_eq hA]
    exact DataFrame.mem_names_setCol_self X _ _

/-- The frame `average_rides_last_4_weeks` produces from `C4frameW`. -/
def C9res : DataFrame ℚ :=
  ⟨[("rides_t-168", [1]), ("rides_t-336", [2]), ("rides_t-504", [3]),
    ("rides_t-672", [4]), ("average_rides_last_4_weeks", [(1 + 2 + 3 + 4) / 4])]⟩

/-- Witness for C9, instantiated on `C4frameW`. -/
theorem average_rides_eff_returns_argument_witness :
    C9res = C9res ∧ "average_rides_last_4_weeks" ∈ C9res.names :=
  average_rides_eff_returns_argument C4frameW C9res C9res rfl

/-- C10: `TemporalFeatureEngineer.transform` never mutates its input — the
effect-aware call reports the caller's frame unchanged — and `fit` returns
the transformer unchanged without reading the data, so `fit` followed by
`transform` yields the same result as `transform` alone. -/
theorem transform_pure_and_fit_identity (t : TemporalFeatureEngineer)
    (X : DataFrame Val) :
    (∀ p, t.transform_eff X = some p → p.2 = X) ∧
    (t.fit X).transform X = t.transform X := by
  constructor
  · intro p hp
    unfold TemporalFeatureEngineer.transform_eff at hp
    cases ht : t.transform X with
    | none =>
      rw [ht] at hp
      cases hp
    | some r =>
      rw [ht] at hp
      simp only [Option.map_some'] at hp
      cases hp
      rfl
  · rfl

/-- A frame with a timestamped `pickup_hour` column and a
`pickup_location_id` column. -/
def C10frame : DataFrame Val :=
  ⟨[("pickup_hour", [Val.time 0]), ("pickup_location_id", [Val.num 1])]⟩

/-- The value `transform_eff` returns on `C10frame`. -/
def C10pair : DataFrame Val × DataFrame Val :=
  (⟨[("hour", [Val.num ((hourOf 0 : ℚ))]),
      ("day_of_week", [Val.num ((dayOfWeekOf 0 : ℚ))])]⟩, C10frame)

/-- Witness for C10, instantiated on `C10frame`. -/
theorem transform_pure_and_fit_identity_witness :
    C10pair.2 = C10frame ∧
      (TemporalFeatureEngineer.mk.fit C10frame).transform C10frame =
        TemporalFeatureEngineer.mk.transform C10frame :=
  ⟨(transform_pure_and_fit_identity TemporalFeatureEngineer.mk C10frame).1
      C10pair rfl,
    (transform_pure_and_fit_identity TemporalFeatureEngineer.mk C10frame).2⟩

/-- C5: on a frame whose `pickup_hour` column holds timestamps and which
has a `pickup_location_id` column, `transform` returns a frame whose
`hour` column is the hour-of-day (0–23) of `pickup_hour` and whose
`day_of_week` column is the day-of-week (0–6, Monday = 0) of `pickup_hour`
in each row, with `pickup_hour` and `pickup_location_id` removed and every
column other than the four named ones unchanged. -/
theorem transform_extracts_temporal_features (t : TemporalFeatureEngineer)
    (X : DataFrame Val) (ph : List Val)
    (hph : X.getCol "pickup_hour" = some ph)
    (htime : ∀ v ∈ ph, v.isTime = true)
    (hloc : "pickup_location_id" ∈ X.names) :
    ∃ X', t.transform X = some X' ∧
      X'.getCol "pickup_hour" = none ∧
      X'.getCol "pickup_location_id" = none ∧
      (∀ c, c ∉ ["hour", "day_of_week", "pickup_hour", "pickup_location_id"] →
        X'.getCol c = X.getCol c) ∧
      (∃ hl, X'.getCol "hour" = some hl ∧
        ∀ (i : Nat) (τ : Int), ph[i]? = some (Val.time τ) →
          hl[i]? = some (Val.num ((hourOf τ : ℚ)))) ∧
      (∃ dl, X'.getCol "day_of_week" = some dl ∧
        ∀ (i : Nat) (τ : Int), ph[i]? = some (Val.time τ) →
          dl[i]? = some (Val.num ((dayOfWeekOf τ : ℚ)))) := by
  have hphmem : "pickup_hour" ∈ X.names := by
    by_contra hn
    have hg := (DataFrame.getCol_eq_none_iff X "pickup_hour").2 hn
    rw [hg] at hph
    cases hph
  have hhour : ∀ v ∈ ph, (Val.toHour v).isSome = true := by
    intro v hv
    have hv' := htime v hv
    cases v with
    | num q => simp [Val.isTime] at hv'
    | time τ => rfl
  have hdow : ∀ v ∈ ph, (Val.toDayOfWeek v).isSome = true := by
    intro v hv
    have hv' := htime v hv
    cases v with
    | num q => simp [Val.isTime] at hv'
    | time τ => rfl
  obtain ⟨hl, hhl⟩ := mapCells_isSome_of_forall Val.toHour ph hhour
  obtain ⟨dl, hdl⟩ := mapCells_isSome_of_forall Val.toDayOfWeek ph hdow
  have hmem1 : ∀ c ∈ ["pickup_hour", "pickup_location_id"],
      c ∈ ((X.setCol "hour" hl).setCol "day_of_week" dl).names := by
    intro c hc
    rcases List.mem_cons.1 hc with rfl | hc'
    · exact (DataFrame.mem_names_setCol_iff _ _ _ _).2
        (Or.inl ((DataFrame.mem_names_setCol_iff _ _ _ _).2 (Or.inl hphmem)))
    · rcases List.mem_cons.1 hc' with rfl | hc''
      · exact (DataFrame.mem_names_setCol_iff _ _ _ _).2
          (Or.inl ((DataFrame.mem_names_setCol_iff _ _ _ _).2 (Or.inl hloc)))
      · cases hc''
  have hdropSome := (DataFrame.dropCols_isSome_iff
    ((X.setCol "hour" hl).setCol "day_of_week" dl)
    ["pickup_hour", "pickup_location_id"]).2 hmem1
  obtain ⟨X', hX'⟩ := Option.isSome_iff_exists.1 hdropSome
  have htr : t.transform X = some X' := by
    simp only [TemporalFeatureEngineer.transform, hph, Option.bind_eq_bind,
      Option.some_bind, hhl, hdl]
    exact hX'
  refine ⟨X', htr, ?_, ?_, ?_, ?_, ?_⟩
  · exact DataFrame.getCol_dropCols_of_mem hX' (by simp)
  · exact DataFrame.getCol_dropCols_of_mem hX' (by simp)
  · intro c hc
    simp only [List.mem_cons, List.not_mem_nil, or_false, not_or] at hc
    obtain ⟨hc1, hc2, hc3, hc4⟩ := hc
    rw [DataFrame.getCol_dropCols_of_not_mem hX' (by simp [hc3, hc4]),
      DataFrame.getCol_setCol_ne _ _ hc2, DataFrame.getCol_setCol_ne _ _ hc1]
  · refine ⟨hl, ?_, ?_⟩
    · rw [DataFrame.getCol_dropCols_of_not_mem hX' (by decide),
        DataFrame.getCol_setCol_ne _ _ (by decide)]
      exact DataFrame.getCol_setCol_self _ _ _
    · intro i τ hi
      have hz := mapCells_getElem? Val.toHour ph hl hhl i (Val.time τ) hi
      simpa [Val.toHour] using hz
  · refine ⟨dl, ?_, ?_⟩
    · rw [DataFrame.getCol_dropCols_of_not_mem hX' (by decide)]
      exact DataFrame.getCol_setCol_self _ _ _
    · intro i τ hi
      have hz := mapCells_getElem? Val.toDayOfWeek ph dl hdl i (Val.time τ) hi
      simpa [Val.toDayOfWeek] using hz

/-- Witness for C5, instantiated on `C10frame`. -/
theorem transform_extracts_temporal_features_witness :
    ∃ X', TemporalFeatureEngineer.mk.transform C10frame = some X' ∧
      X'.getCol "pickup_hour" = none ∧
      X'.getCol "pickup_location_id" = none ∧
      (∀ c, c ∉ ["hour", "day_of_week", "pickup_hour", "pickup_location_id"] →
        X'.getCol c = C10frame.getCol c) ∧
      (∃ hl, X'.getCol "hour" = some hl ∧
        ∀ (i : Nat) (τ : Int), [Val.time 0][i]? = some (Val.time τ) →
          hl[i]? = some (Val.num ((hourOf τ : ℚ)))) ∧
      (∃ dl, X'.getCol "day_of_week" = some dl ∧
        ∀ (i : Nat) (τ : Int), [Val.time 0][i]? = some (Val.time τ) →
          dl[i]? = some (Val.num ((dayOfWeekOf τ : ℚ)))) :=
  transform_extracts_temporal_features TemporalFeatureEngineer.mk C10frame
    [Val.time 0] rfl (by decide) (by decide)

/-- `transform` fails exactly when `pickup_hour` or `pickup_location_id`
is missing or a `pickup_hour` cell is not a timestamp. -/
theorem transform_eq_none_iff (t : TemporalFeatureEngineer) (X : DataFrame Val) :
    t.transform X = none ↔
      "pickup_hour" ∉ X.names ∨
      (∃ ph, X.getCol "pickup_hour" = some ph ∧ ∃ v ∈ ph, v.isTime = false) ∨
      "pickup_location_id" ∉ X.names := by
  cases hph : X.getCol "pickup_hour" with
  | none =>
    have h1 := (DataFrame.getCol_eq_none_iff X "pickup_hour").1 hph
    constructor
    · intro _
      exact Or.inl h1
    · intro _
      simp [TemporalFeatureEngineer.transform, hph]
  | some ph =>
    have hmem : "pickup_hour" ∈ X.names := by
      by_contra hn
      have hg := (DataFrame.getCol_eq_none_iff X "pickup_hour").2 hn
      rw [hg] at hph
      cases hph
    by_cases hbad : ∃ v ∈ ph, v.isTime = false
    · obtain ⟨v, hv, hvb⟩ := hbad
      have hvnum : ∃ q, v = Val.num q := by
        cases v with
        | num q => exact ⟨q, rfl⟩
        | time τ => simp [Val.isTime] at hvb
      obtain ⟨q, rfl⟩ := hvnum
      have hnone : mapCells Val.toHour ph = none :=
        (mapCells_eq_none_iff Val.toHour ph).2 ⟨Val.num q, hv, rfl⟩
      constructor
      · intro _
        exact Or.inr (Or.inl ⟨ph, rfl, Val.num q, hv, rfl⟩)
      · intro _
        simp [TemporalFeatureEngineer.transform, hph, hnone]
    · have htime : ∀ v ∈ ph, v.isTime = true := by
        intro v hv
        cases hvt : v.isTime with
        | false => exact absurd ⟨v, hv, hvt⟩ hbad
        | true => rfl
      have hhour : ∀ v ∈ ph, (Val.toHour v).isSome = true := by
        intro v hv
        have hv' := htime v hv
        cases v with
        | num q => simp [Val.isTime] at hv'
        | time τ => rfl
      have hdow : ∀ v ∈ ph, (Val.toDayOfWeek v).isSome = true := by
        intro v hv
        have hv' := htime v hv
        cases v with
        | num q => simp [Val.isTime] at hv'
        | time τ => rfl
      obtain ⟨hl, hhl⟩ := mapCells_isSome_of_forall Val.toHour ph hhour
      obtain ⟨dl, hdl⟩ := mapCells_isSome_of_forall Val.toDayOfWeek ph hdow
      have hredux : t.transform X =
          ((X.setCol "hour" hl).setCol "day_of_week" dl).dropCols
            ["pickup_hour", "pickup_location_id"] := by
        simp only [TemporalFeatureEngineer.transform, hph, Option.bind_eq_bind,
          Option.some_bind, hhl, hdl]
      have hplid : "pickup_location_id" ∈
          ((X.setCol "hour" hl).setCol "day_of_week" dl).names ↔
          "pickup_location_id" ∈ X.names := by
        rw [DataFrame.mem_names_setCol_iff, DataFrame.mem_names_setCol_iff]
        constructor
        · rintro ((h | h) | h)
          · exact h
          · exact absurd h (by decide)
          · exact absurd h (by decide)
        · intro h
          exact Or.inl (Or.inl h)
      rw [hredux]
      constructor
      · intro hnone
        refine Or.inr (Or.inr ?_)
        intro hlocmem
        have hmem1 : ∀ c ∈ ["pickup_hour", "pickup_location_id"],
            c ∈ ((X.setCol "hour" hl).setCol "day_of_week" dl).names := by
          intro c hc
          rcases List.mem_cons.1 hc with rfl | hc'
          · exact (DataFrame.mem_names_setCol_iff _ _ _ _).2
              (Or.inl ((DataFrame.mem_names_setCol_iff _ _ _ _).2 (Or.inl hmem)))
          · rcases List.mem_cons.1 hc' with rfl | hc''
            · exact hplid.2 hlocmem
            · cases hc''
        have hs := (DataFrame.dropCols_isSome_iff _ _).2 hmem1
        rw [hnone] at hs
        cases hs
      · rintro (h | ⟨ph', hph', v, hv, hvb⟩ | h)
        · exact absurd hmem h
        · cases hph'
          exact absurd ⟨v, hv, hvb⟩ hbad
        · cases hd : ((X.setCol "hour" hl).setCol "day_of_week" dl).dropCols
              ["pickup_hour", "pickup_location_id"] with
          | none => rfl
          | some d =>
            have hs : (((X.setCol "hour" hl).setCol "day_of_week" dl).dropCols
                ["pickup_hour", "pickup_location_id"]).isSome = true := by
              rw [hd]
              rfl
            have hall := (DataFrame.dropCols_isSome_iff _ _).1 hs
            exact absurd (hplid.1 (hall "pickup_location_id" (by simp))) h

/-- `fetch_batch_raw_data` errors exactly when the window is empty or
inverted. -/
theorem fetch_error_iff (db : List RawRide) (fd td : Int) :
    (∃ e, fetch_batch_raw_data db fd td = .error e) ↔ td ≤ fd := by
  unfold fetch_batch_raw_data
  by_cases h : fd ≥ td
  · rw [if_pos h]
    exact ⟨fun _ => h, fun _ => ⟨_, rfl⟩⟩
  · rw [if_neg h]
    constructor
    · rintro ⟨e, he⟩
      cases he
    · intro ht
      exact absurd ht h

/-- C3 counterexample: `fetch_batch_raw_data` raises for an equal pair of
dates, a failure that has nothing to do with a missing input column. -/
theorem fetch_raises_on_equal_dates :
    fetch_batch_raw_data [] 0 0 = .error "from_date must be earlier than to_date." := rfl

/-- C3 (amended): the DataFrame helpers fail only on missing required
columns — `average_rides_last_4_weeks` raises exactly when a lag column is
missing, and `TemporalFeatureEngineer.transform` exactly when
`pickup_hour` or `pickup_location_id` is missing or a `pickup_hour` cell
is not a timestamp — but `fetch_batch_raw_data` additionally raises
`ValueError` exactly when `from_date ≥ to_date`, a failure unrelated to
missing columns. -/
theorem helpers_failure_semantics :
    (∀ X : DataFrame ℚ, (∃ e, average_rides_last_4_weeks X = .error e) ↔
        ∃ c ∈ last_4_weeks_columns, c ∉ X.names) ∧
    (∀ (t : TemporalFeatureEngineer) (X : DataFrame Val),
        t.transform X = none ↔
          "pickup_hour" ∉ X.names ∨
          (∃ ph, X.getCol "pickup_hour" = some ph ∧ ∃ v ∈ ph, v.isTime = false) ∨
          "pickup_location_id" ∉ X.names) ∧
    (∀ (db : List RawRide) (fd td : Int),
        (∃ e, fetch_batch_raw_data db fd td = .error e) ↔ td ≤ fd) :=
  ⟨average_rides_raises_iff_aux, transform_eq_none_iff, fetch_error_iff⟩

/-- C6: `split_time_series_data` splits the feature set by time at the
cutoff date — every input row goes to exactly one partition (train strictly
before the cutoff, test at or after it), the target column is separated
from the features in both partitions, and no row is dropped or duplicated,
so the train and test row counts sum to the input row count. -/
theorem split_time_series_data_partitions (df : List TsRow) (cutoff_date : Int) :
    ((split_time_series_data df cutoff_date).1.length +
        (split_time_series_data df cutoff_date).2.2.1.length = df.length) ∧
    (∀ p ∈ (split_time_series_data df cutoff_date).1, p.1 < cutoff_date) ∧
    (∀ p ∈ (split_time_series_data df cutoff_date).2.2.1, cutoff_date ≤ p.1) ∧
    ((split_time_series_data df cutoff_date).1 ++
        (split_time_series_data df cutoff_date).2.2.1).Perm
      (df.map fun r => (r.pickup_hour, r.features)) ∧
    (∀ (i : Nat) p, (split_time_series_data df cutoff_date).1[i]? = some p →
      ∃ r ∈ df, r.pickup_hour < cutoff_date ∧ p = (r.pickup_hour, r.features) ∧
        (split_time_series_data df cutoff_date).2.1[i]? = some r.target) ∧
    (∀ (i : Nat) p, (split_time_series_data df cutoff_date).2.2.1[i]? = some p →
      ∃ r ∈ df, cutoff_date ≤ r.pickup_hour ∧ p = (r.pickup_hour, r.features) ∧
        (split_time_series_data df cutoff_date).2.2.2[i]? = some r.target) := by
  have hperm : ((df.filter fun r => decide (r.pickup_hour < cutoff_date)) ++
      (df.filter fun r => !decide (r.pickup_hour < cutoff_date))).Perm df :=
    List.filter_append_perm _ df
  refine ⟨?_, ?_, ?_, ?_, ?_, ?_⟩
  · have hlen := hperm.length_eq
    rw [List.length_append] at hlen
    simpa [split_time_series_data] using hlen
  · intro p hp
    simp only [split_time_series_data, List.mem_map] at hp
    obtain ⟨r, hr, rfl⟩ := hp
    exact of_decide_eq_true (List.mem_filter.1 hr).2
  · intro p hp
    simp only [split_time_series_data, List.mem_map] at hp
    obtain ⟨r, hr, rfl⟩ := hp
    have hb := (List.mem_filter.1 hr).2
    simp only [Bool.not_eq_true', decide_eq_false_iff_not, not_lt] at hb
    exact hb
  · have hm := hperm.map fun r => (r.pickup_hour, r.features)
    rw [List.map_append] at hm
    simpa [split_time_series_data] using hm
  · intro i p hp
    simp only [split_time_series_data, List.getElem?_map] at hp
    cases hf : (df.filter fun r => decide (r.pickup_hour < cutoff_date))[i]? with
    | none =>
      rw [hf] at hp
      cases hp
    | some r =>
      rw [hf] at hp
      simp only [Option.map_some'] at hp
      cases hp
      have hr := List.getElem?_mem hf
      refine ⟨r, (List.mem_filter.1 hr).1,
        of_decide_eq_true (List.mem_filter.1 hr).2, rfl, ?_⟩
      simp only [split_time_series_data, List.getElem?_map, hf, Option.map_some']
  · intro i p hp
    simp only [split_time_series_data, List.getElem?_map] at hp
    cases hf : (df.filter fun r => !decide (r.pickup_hour < cutoff_date))[i]? with
    | none =>
      rw [hf] at hp
      cases hp
    | some r =>
      rw [hf] at hp
      simp only [Option.map_some'] at hp
      cases hp
      have hr := List.getElem?_mem hf
      have hb := (List.mem_filter.1 hr).2
      simp only [Bool.not_eq_true', decide_eq_false_iff_not, not_lt] at hb
      refine ⟨r, (List.mem_filter.1 hr).1, hb, rfl, ?_⟩
      simp only [split_time_series_data, List.getElem?_map, hf, Option.map_some']

/-- C7: in each modeling notebook, the score handed to
`log_model_to_mlflow` is exactly the mean absolute error of the logged
model's predictions on the logged test features against the held-out test
targets. -/
theorem logged_score_is_test_mae {M : Type}
    (lgbm_fit xgb_fit : DataFrame ℚ → List ℚ → M)
    (predict : M → DataFrame ℚ → List ℚ) (best_model : M)
    (X_train : DataFrame ℚ) (y_train : List ℚ)
    (X_test : DataFrame ℚ) (y_test : List ℚ) :
    ((notebook09_cell lgbm_fit predict X_train y_train X_test y_test).score =
      mean_absolute_error y_test
        (predict (notebook09_cell lgbm_fit predict X_train y_train X_test y_test).model
          (notebook09_cell lgbm_fit predict X_train y_train X_test y_test).input_data)) ∧
    ((notebookXgb_cell xgb_fit predict X_train y_train X_test y_test).score =
      mean_absolute_error y_test
        (predict (notebookXgb_cell xgb_fit predict X_train y_train X_test y_test).model
          (notebookXgb_cell xgb_fit predict X_train y_train X_test y_test).input_data)) ∧
    ((notebook13_cell best_model predict X_test y_test).score =
      mean_absolute_error y_test
        (predict (notebook13_cell best_model predict X_test y_test).model
          (notebook13_cell best_model predict X_test y_test).input_data)) :=
  ⟨rfl, rfl, rfl⟩

/-- C8: every frame successfully returned by `fetch_batch_raw_data` is in
non-decreasing lexicographic order by `(pickup_location_id,
pickup_datetime)`: for any two consecutive rows, either the first has a
strictly smaller location id, or the ids are equal and the first pickup
time is not later than the second. -/
theorem fetch_result_sorted (db : List RawRide) (fd td : Int) (rs : List RawRide)
    (h : fetch_batch_raw_data db fd td = .ok rs) :
    rs.Chain' fun a b => a.pickup_location_id < b.pickup_location_id ∨
      (a.pickup_location_id = b.pickup_location_id ∧
        a.pickup_datetime ≤ b.pickup_datetime) := by
  unfold fetch_batch_raw_data at h
  split at h
  · cases h
  · cases h
    exact List.Pairwise.chain' (List.sorted_insertionSort rideOrder _)

/-- A raw dataset spanning January and February 2024, out of order. -/
def C8db : List RawRide :=
  [⟨mkTime 2024 2 5 0 0, 2⟩, ⟨mkTime 2024 1 25 0 0, 5⟩, ⟨mkTime 2024 1 22 12 0, 2⟩]

/-- A window whose 52-week shift spans 2024-01-20 to 2024-02-10. -/
def C8from : Int := mkTime 2024 1 20 0 0 + fiftyTwoWeeks

/-- The end of the `C8from` window. -/
def C8to : Int := mkTime 2024 2 10 0 0 + fiftyTwoWeeks

/-- What `fetch_batch_raw_data C8db C8from C8to` returns. -/
def C8rs : List RawRide :=
  [⟨mkTime 2024 1 22 12 0 + fiftyTwoWeeks, 2⟩,
    ⟨mkTime 2024 2 5 0 0 + fiftyTwoWeeks, 2⟩,
    ⟨mkTime 2024 1 25 0 0 + fiftyTwoWeeks, 5⟩]

/-- Witness for C8, instantiated on `C8db`. -/
theorem fetch_result_sorted_witness :
    C8rs.Chain' fun a b => a.pickup_location_id < b.pickup_location_id ∨
      (a.pickup_location_id = b.pickup_location_id ∧
        a.pickup_datetime ≤ b.pickup_datetime) :=
  fetch_result_sorted C8db C8from C8to C8rs rfl

/-- On a valid window, `fetch_batch_raw_data` returns the sorted, 52-week
shifted rides of the loaded historical month(s). -/
theorem fetch_ok_eq (db : List RawRide) (fd td : Int) (h : fd < td) :
    fetch_batch_raw_data db fd td = .ok (List.insertionSort rideOrder
      ((if monthOf (td - fiftyTwoWeeks) ≠ monthOf (fd - fiftyTwoWeeks) then
          ((load_and_process_taxi_data db (yearOf (fd - fiftyTwoWeeks))
              [monthOf (fd - fiftyTwoWeeks)]).filter
            fun r => decide (fd - fiftyTwoWeeks ≤ r.pickup_datetime)) ++
          ((load_and_process_taxi_data db (yearOf (td - fiftyTwoWeeks))
              [monthOf (td - fiftyTwoWeeks)]).filter
            fun r => decide (r.pickup_datetime < td - fiftyTwoWeeks))
        else
          (load_and_process_taxi_data db (yearOf (fd - fiftyTwoWeeks))
              [monthOf (fd - fiftyTwoWeeks)]).filter
            fun r => decide (fd - fiftyTwoWeeks ≤ r.pickup_datetime)).map
        fun r => { r with pickup_datetime := r.pickup_datetime + fiftyTwoWeeks })) := by
  unfold fetch_batch_raw_data
  rw [if_neg (not_le.2 h)]

/-- A row of the loaded from-month at or after the shifted from-date is at
least `fd` once shifted forward, and lies in the month of the shifted
from-date. -/
theorem mem_rides_from_bounds {db : List RawRide} {fd : Int} {r0 : RawRide}
    (h : r0 ∈ (load_and_process_taxi_data db (yearOf (fd - fiftyTwoWeeks))
        [monthOf (fd - fiftyTwoWeeks)]).filter
      fun r => decide (fd - fiftyTwoWeeks ≤ r.pickup_datetime)) :
    fd ≤ r0.pickup_datetime + fiftyTwoWeeks ∧
      yearOf r0.pickup_datetime = yearOf (fd - fiftyTwoWeeks) ∧
      monthOf r0.pickup_datetime = monthOf (fd - fiftyTwoWeeks) := by
  obtain ⟨hmem, hge⟩ := List.mem_filter.1 h
  unfold load_and_process_taxi_data at hmem
  obtain ⟨_, hym⟩ := List.mem_filter.1 hmem
  simp only [Bool.and_eq_true, beq_iff_eq, List.contains_cons, List.contains_nil,
    Bool.or_false] at hym
  have hge' := of_decide_eq_true hge
  exact ⟨by omega, hym.1, hym.2⟩

/-- C1 (amended): for `from_date < to_date`, every row successfully
returned by `fetch_batch_raw_data` comes from one of the two loaded
historical months: either its 52-week back-shift falls in the calendar
month of the shifted `from_date` and its `pickup_datetime` is at least
`from_date`, or the two shifted dates fall in different calendar months
and its back-shift falls in the month of the shifted `to_date` with
`pickup_datetime` strictly before `to_date`.  The half-open-window
guarantee of the original claim fails when the two shifted dates share a
calendar month (see the counterexample). -/
theorem fetch_window_bounds (db : List RawRide) (from_date to_date : Int)
    (hlt : from_date < to_date) (rs : List RawRide)
    (hok : fetch_batch_raw_data db from_date to_date = .ok rs) :
    ∀ r ∈ rs,
      (yearOf (r.pickup_datetime - fiftyTwoWeeks) =
          yearOf (from_date - fiftyTwoWeeks) ∧
        monthOf (r.pickup_datetime - fiftyTwoWeeks) =
          monthOf (from_date - fiftyTwoWeeks) ∧
        from_date ≤ r.pickup_datetime) ∨
      (monthOf (to_date - fiftyTwoWeeks) ≠ monthOf (from_date - fiftyTwoWeeks) ∧
        yearOf (r.pickup_datetime - fiftyTwoWeeks) =
          yearOf (to_date - fiftyTwoWeeks) ∧
        monthOf (r.pickup_datetime - fiftyTwoWeeks) =
          monthOf (to_date - fiftyTwoWeeks) ∧
        r.pickup_datetime < to_date) := by
  rw [fetch_ok_eq db from_date to_date hlt] at hok
  cases hok
  intro r hr
  rw [List.mem_insertionSort, List.mem_map] at hr
  obtain ⟨r0, hr0, rfl⟩ := hr
  by_cases hm : monthOf (to_date - fiftyTwoWeeks) ≠ monthOf (from_date - fiftyTwoWeeks)
  · rw [if_pos hm] at hr0
    rcases List.mem_append.1 hr0 with hfm | htm
    · obtain ⟨hge, hy, hmo⟩ := mem_rides_from_bounds hfm
      left
      refine ⟨?_, ?_, hge⟩
      · show yearOf (r0.pickup_datetime + fiftyTwoWeeks - fiftyTwoWeeks) = _
        rw [Int.add_sub_cancel]
        exact hy
      · show monthOf (r0.pickup_datetime + fiftyTwoWeeks - fiftyTwoWeeks) = _
        rw [Int.add_sub_cancel]
        exact hmo
    · obtain ⟨hmem, hlt2⟩ := List.mem_filter.1 htm
      unfold load_and_process_taxi_data at hmem
      obtain ⟨_, hym⟩ := List.mem_filter.1 hmem
      simp only [Bool.and_eq_true, beq_iff_eq, List.contains_cons, List.contains_nil,
        Bool.or_false] at hym
      have hlt2' := of_decide_eq_true hlt2
      right
      refine ⟨hm, ?_, ?_, ?_⟩
      · show yearOf (r0.pickup_datetime + fiftyTwoWeeks - fiftyTwoWeeks) = _
        rw [Int.add_sub_cancel]
        exact hym.1
      · show monthOf (r0.pickup_datetime + fiftyTwoWeeks - fiftyTwoWeeks) = _
        rw [Int.add_sub_cancel]
        exact hym.2
      · show r0.pickup_datetime + fiftyTwoWeeks < to_date
        omega
  · rw [if_neg hm] at hr0
    obtain ⟨hge, hy, hmo⟩ := mem_rides_from_bounds hr0
    left
    refine ⟨?_, ?_, hge⟩
    · show yearOf (r0.pickup_datetime + fiftyTwoWeeks - fiftyTwoWeeks) = _
      rw [Int.add_sub_cancel]
      exact hy
    · show monthOf (r0.pickup_datetime + fiftyTwoWeeks - fiftyTwoWeeks) = _
      rw [Int.add_sub_cancel]
      exact hmo

/-- A raw dataset with a single ride on 2024-01-25. -/
def C1db : List RawRide := [⟨mkTime 2024 1 25 0 0, 1⟩]

/-- A window whose 52-week shift spans 2024-01-10 to 2024-01-20 — both in
the same calendar month. -/
def C1from : Int := mkTime 2024 1 10 0 0 + fiftyTwoWeeks

/-- The end of the `C1from` window. -/
def C1to : Int := mkTime 2024 1 20 0 0 + fiftyTwoWeeks

/-- C1 counterexample: when the two shifted dates fall in the same
calendar month, the upper bound of the window is not enforced — the ride of
2024-01-25, shifted forward 52 weeks, is returned even though it lies at or
after `to_date`. -/
theorem fetch_window_upper_bound_violated :
    C1from < C1to ∧
    fetch_batch_raw_data C1db C1from C1to =
      .ok [⟨mkTime 2024 1 25 0 0 + fiftyTwoWeeks, 1⟩] ∧
    C1to ≤ mkTime 2024 1 25 0 0 + fiftyTwoWeeks := by
  refine ⟨by decide, rfl, by decide⟩

/-- Witness for C1 (amended), instantiated on `C1db`: the returned ride is
at least `from_date` and its back-shift lies in the month of the shifted
from-date. -/
theorem fetch_window_bounds_witness :
    (yearOf (mkTime 2024 1 25 0 0 + fiftyTwoWeeks - fiftyTwoWeeks) =
        yearOf (C1from - fiftyTwoWeeks) ∧
      monthOf (mkTime 2024 1 25 0 0 + fiftyTwoWeeks - fiftyTwoWeeks) =
        monthOf (C1from - fiftyTwoWeeks) ∧
      C1from ≤ mkTime 2024 1 25 0 0 + fiftyTwoWeeks) ∨
    (monthOf (C1to - fiftyTwoWeeks) ≠ monthOf (C1from - fiftyTwoWeeks) ∧
      yearOf (mkTime 2024 1 25 0 0 + fiftyTwoWeeks - fiftyTwoWeeks) =
        yearOf (C1to - fiftyTwoWeeks) ∧
      monthOf (mkTime 2024 1 25 0 0 + fiftyTwoWeeks - fiftyTwoWeeks) =
        monthOf (C1to - fiftyTwoWeeks) ∧
      mkTime 2024 1 25 0 0 + fiftyTwoWeeks < C1to) :=
  fetch_window_bounds C1db C1from C1to (by decide)
    [⟨mkTime 2024 1 25 0 0 + fiftyTwoWeeks, 1⟩] rfl
    ⟨mkTime 2024 1 25 0 0 + fiftyTwoWeeks, 1⟩ (by decide)

end CDA500P1
